import Mathlib

/-!
Shallow embedding of the camply GoingToCamp provider core
(src/camply/providers/going_to_camp/going_to_camp_provider.py and
src/camply/search/search_going_to_camp.py), with theorems checking the
natural-language specification's claims against the code.

Python dictionaries are modelled as association lists with Python's
insertion-order / overwrite-on-update semantics; Python exceptions are
modelled with `Option`/`Except`; the recursive resolver is modelled with an
explicit recursion-depth fuel parameter (`none` = the recursion has not
returned within that depth).
-/

namespace Camply

/-- A single availability record for one resource, as stored in the
`resourceAvailabilities` mapping returned by the MAPDATA endpoint.
Only the `availability` status code is inspected by the code under test
(`availability_details[0]["availability"]`). -/
structure AvailEntry where
  availability : Int
deriving DecidableEq, Repr

/-- Python `d[k] = v` on a dict represented as an insertion-ordered
association list: an existing key keeps its position but its value is
replaced; a new key is appended at the end. -/
def dictInsert {κ α : Type} [BEq κ] (d : List (κ × α)) (k : κ) (v : α) :
    List (κ × α) :=
  if d.any (fun p => p.1 == k) then
    d.map (fun p => if p.1 == k then (p.1, v) else p)
  else d ++ [(k, v)]

/-- Python `d.update(e)` on dicts represented as association lists:
every entry of `e` is written into `d` in order, overwriting existing keys. -/
def dictUpdate {κ α : Type} [BEq κ] (d e : List (κ × α)) : List (κ × α) :=
  e.foldl (fun acc p => dictInsert acc p.1 p.2) d

/-- Python `d.get(k)` / `d[k]` lookup on an association-list dict. -/
def dictLookup {κ α : Type} [BEq κ] (d : List (κ × α)) (k : κ) : Option α :=
  (d.find? (fun p => p.1 == k)).map Prod.snd

/-- The keys of an association-list dict, in insertion order. -/
def dictKeys {κ α : Type} (d : List (κ × α)) : List κ :=
  d.map Prod.fst

/-- The value a dict lookup takes after an update: the updating dict's value
when it has one, otherwise the original dict's. -/
def overrideLookup {α : Type} (a b : Option α) : Option α :=
  match a with
  | some v => some v
  | none => b

/-- The provider's map graph, as observed through the MAPDATA endpoint:
for each map id, the direct `resourceAvailabilities` (a dict keyed by
resource id) and the child map ids (`mapLinkAvailabilities` keys). -/
structure MapGraph where
  resourceAvail : Int → List (Int × List AvailEntry)
  mapLinks : Int → List Int

/-- A map graph is well-formed when every per-map `resourceAvailabilities`
dict has no duplicate resource-id keys (true of any Python dict). -/
def GoodGraph (g : MapGraph) : Prop :=
  ∀ m : Int, (dictKeys (g.resourceAvail m)).Nodup

/-- The child-merging loop of `_find_matching_resources`: for each child map
id, run the recursive query (`step`) and `dict.update` its result into the
accumulator. `none` propagates a child that did not return. -/
def mergeChildren (step : Int → Option (List (Int × List AvailEntry))) :
    List Int → List (Int × List AvailEntry) →
    Option (List (Int × List AvailEntry))
  | [], acc => some acc
  | c :: cs, acc =>
    match step c with
    | none => none
    | some childAvail => mergeChildren step cs (dictUpdate acc childAvail)

/-- `_find_matching_resources`, fuel-indexed: query the current map id,
take its direct `resourceAvailabilities`, then for each child map id in
`mapLinkAvailabilities` recurse and `dict.update` the child's mapping into
the accumulator.  `none` means the recursion did not complete within `fuel`
nested calls (the Python code has no depth bound and no visited-set). -/
def find_matching_resources (g : MapGraph) : Nat → Int →
    Option (List (Int × List AvailEntry))
  | 0, _ => none
  | fuel + 1, mapId =>
    mergeChildren (fun c => find_matching_resources g fuel c)
      (g.mapLinks mapId) (g.resourceAvail mapId)

/-- Concrete graph for the merge-overwrite counterexample: map 10 directly
carries resource 1 with status 0 and links to child map 11; map 11 carries
the same resource 1 with status 5 and no children. -/
def overlapGraph : MapGraph where
  resourceAvail := fun m =>
    if m = 10 then [(1, [⟨0⟩])]
    else if m = 11 then [(1, [⟨5⟩])]
    else []
  mapLinks := fun m => if m = 10 then [11] else []

/-- Concrete graph for the cycle counterexample: map 10 lists itself as a
child map. -/
def selfLoopGraph : MapGraph where
  resourceAvail := fun _ => []
  mapLinks := fun m => if m = 10 then [10] else []

/-- The resolver never returns on this input, whatever the recursion depth:
the model of an infinite recursion. -/
def NeverReturns (g : MapGraph) (mapId : Int) : Prop :=
  ∀ fuel : Nat, find_matching_resources g fuel mapId = none

/-- A graph whose maps report no child maps at all. -/
def leafGraph : MapGraph where
  resourceAvail := fun _ => [(3, [⟨0⟩])]
  mapLinks := fun _ => []

/-! ### Association-list dictionary lemmas -/

/-! ### Resolver lemmas -/

/-! ### list_site_availability -/

/-- `availability_details[0].availability` — Python indexing of the first
availability entry; `none` models the IndexError an empty sequence raises. -/
def firstEntryAvailability : List AvailEntry → Option Int
  | [] => none
  | e :: _ => some e.availability

/-- The selection loop of `list_site_availability`: a resource id is kept
iff its FIRST availability entry has status code 0; no other entry is read. -/
def siteLoop : List (Int × List AvailEntry) → Option (List Int)
  | [] => some []
  | (rid, details) :: rest =>
    match firstEntryAvailability details with
    | none => none
    | some a =>
      match siteLoop rest with
      | none => none
      | some tail => some ((if a = 0 then [rid] else []) ++ tail)

/-- `list_site_availability`: resolve every resource reachable from the
campground's map, then keep the resource ids whose first availability entry
has status code 0. -/
def list_site_availability (g : MapGraph) (fuel : Nat) (mapId : Int) :
    Option (List Int) :=
  match find_matching_resources g fuel mapId with
  | none => none
  | some resources => siteLoop resources

/-- Following the spec's words, for the refinement comparison in C3: a
resource is available for the requested window iff EVERY day in it has
status code 0. -/
def specWindowAllAvailable (entries : List AvailEntry) : Bool :=
  entries.all (fun e => e.availability == 0)

/-- Concrete graph for C3: map 10 carries resource 7 (first day available,
second day unavailable) and resource 8 (first day unavailable), no children. -/
def dailyGraph : MapGraph where
  resourceAvail := fun m => if m = 10 then [(7, [⟨0⟩, ⟨1⟩]), (8, [⟨2⟩])] else []
  mapLinks := fun _ => []

/-! ### Equipment categories and the matcher -/

/-- `leadsWith pat s`: the character list `s` starts with `pat`. -/
def leadsWith : List Char → List Char → Bool
  | [], _ => true
  | _ :: _, [] => false
  | a :: as, b :: bs => a == b && leadsWith as bs

/-- Index of the first occurrence of `pat` inside `s`, if any. -/
def subFind (pat : List Char) : List Char → Option Nat
  | [] => if leadsWith pat [] then some 0 else none
  | c :: t =>
    if leadsWith pat (c :: t) then some 0
    else (subFind pat t).map (fun n => n + 1)

/-- Python `s.find(sub)`: index of the first occurrence of `sub` in `s`,
or -1 when absent. -/
def strFind (s sub : String) : Int :=
  match subFind sub.data s.data with
  | some n => (n : Int)
  | none => -1

/-- Python `sub in s` substring membership. -/
def containsSub (s sub : String) : Bool :=
  (subFind sub.data s.data).isSome

/-- Python `str.lower()` (ASCII names). -/
def pyLower (s : String) : String :=
  String.mk (s.data.map Char.toLower)

/-- Python `int(w)` on a decimal word: all characters must be digits;
`none` models the ValueError raised otherwise. -/
def digitsToNat : List Char → Option Nat
  | [] => none
  | cs =>
    if cs.all Char.isDigit then
      some (cs.foldl (fun n c => n * 10 + (c.toNat - 48)) 0)
    else none

/-- Python `int(category_name.split(" ")[0])`: the characters before the
first space, parsed as a decimal number. -/
def intFirstWord (s : String) : Option Nat :=
  digitsToNat (s.data.takeWhile (fun c => c != ' '))

/-- Python `int(re.findall(r"\d+", s)[0])`: the first maximal digit run of
`s`; `none` models the IndexError when `s` holds no digit. -/
def firstDigitRun (s : String) : Option Nat :=
  digitsToNat ((s.data.dropWhile (fun c => ¬ c.isDigit)).takeWhile Char.isDigit)

/-- The `max_size` heuristic of `list_equipment_categories` on an already
lowercased category name: `"tent"` names parse the leading word as a count,
`"rv/trailer up to"` names take their first number, `"rv/trailer over"`
names get the 1000 sentinel, anything else 0.  The three `if`s run in
sequence, each overwriting the previous value; a failed parse raises
(modelled as `none`). -/
def maxSizeOf (name : String) : Option Int :=
  match (if containsSub name "tent"
          then (intFirstWord name).map Int.ofNat else some 0) with
  | none => none
  | some s1 =>
    match (if containsSub name "rv/trailer up to"
            then (firstDigitRun name).map Int.ofNat else some s1) with
    | none => none
    | some s2 => some (if containsSub name "rv/trailer over" then 1000 else s2)

/-- The dict-building loop of `list_equipment_categories`:
`sub_categories[name.lower()] = (subEquipmentCategoryId, max_size)`. -/
def buildSubCategories : List (String × Int) → List (String × Int × Int) →
    Option (List (String × Int × Int))
  | [], acc => some acc
  | (nm, cid) :: rest, acc =>
    match maxSizeOf (pyLower nm) with
    | none => none
    | some ms => buildSubCategories rest (dictInsert acc (pyLower nm) (cid, ms))

/-- `list_equipment_categories`: each raw sub-category contributes its
lowercased display name keyed to (category id, parsed max size). -/
def list_equipment_categories (raw : List (String × Int)) :
    Option (List (String × Int × Int)) :=
  buildSubCategories raw []

/-- `_get_equipment_category`'s scanning loop: the first category whose
name matches `eq_name.find(our_name) > 0` AND whose size constraint is met
(length 0 accepted unconditionally, a positive length iff it is at most the
category's max size) is returned; `none` models falling off the end (the
code logs an error and exits). -/
def get_equipment_category :
    List (String × Int × Int) → String → Int → Option Int
  | [], _, _ => none
  | (eqName, cid, maxSize) :: rest, ourName, len =>
    if strFind eqName ourName > 0 then
      if len = 0 then some cid
      else if 0 < len ∧ len ≤ maxSize then some cid
      else get_equipment_category rest ourName len
    else get_equipment_category rest ourName len

/-- The spec's scenario listing: display names with their category ids. -/
def scenarioListing : List (String × Int) :=
  [("1 Tent", 5), ("RV/Trailer up to 20\x27", 6), ("RV/Trailer over 40\x27", 7)]

/-- The equipment dict the code builds from `scenarioListing`. -/
def scenarioCategories : List (String × Int × Int) :=
  [("1 tent", (5, 1)), ("rv/trailer up to 20\x27", (6, 20)),
   ("rv/trailer over 40\x27", (7, 1000))]

/-! ### fetch_nested_key -/

/-- A JSON-like Python value: the shapes `fetch_nested_key` traverses. -/
inductive JVal where
  | jnull : JVal
  | jbool : Bool → JVal
  | jnum : Int → JVal
  | jstr : String → JVal
  | jarr : List JVal → JVal
  | jobj : List (String × JVal) → JVal

/-- A path segment of `fetch_nested_key`: a mapping key or an index. -/
inductive JKey where
  | kstr : String → JKey
  | kint : Int → JKey

/-- The exceptions `fetch_nested_key` can raise: the AttributeError it
raises itself for a non-container root or an empty key path, and the
IndexError of an out-of-range sequence index, which its
`except (KeyError, TypeError)` clause does NOT catch. -/
inductive FetchErr where
  | attributeError : FetchErr
  | indexError : FetchErr
deriving DecidableEq

/-- The outcome of one Python `_element[key]` subscription, sorted by how
`fetch_nested_key`'s `except (KeyError, TypeError)` clause treats it. -/
inductive GetItemResult where
  | ok : JVal → GetItemResult
  | keyOrTypeError : GetItemResult
  | indexError : GetItemResult

/-- Python list subscription `xs[n]`: negative indices count from the end,
anything outside the range raises IndexError. -/
def listGet (xs : List JVal) (n : Int) : GetItemResult :=
  let j : Int := if n < 0 then (xs.length : Int) + n else n
  if 0 ≤ j then
    match xs.get? j.toNat with
    | some v => .ok v
    | none => .indexError
  else .indexError

/-- Python string subscription `s[n]`: a one-character string, or
IndexError outside the range. -/
def strGet (s : String) (n : Int) : GetItemResult :=
  let j : Int := if n < 0 then (s.data.length : Int) + n else n
  if 0 ≤ j then
    match s.data.get? j.toNat with
    | some c => .ok (.jstr (String.mk [c]))
    | none => .indexError
  else .indexError

/-- Python `_element[key]` over the JSON shapes: mapping lookup (KeyError
when absent, TypeError-like KeyError for an int key on a string-keyed
mapping), list/string indexing (IndexError out of range, TypeError for a
string key), TypeError for every non-subscriptable value. -/
def getItem : JVal → JKey → GetItemResult
  | .jobj fields, .kstr s =>
    match fields.find? (fun p => p.1 == s) with
    | some p => .ok p.2
    | none => .keyOrTypeError
  | .jobj _, .kint _ => .keyOrTypeError
  | .jarr xs, .kint n => listGet xs n
  | .jarr _, .kstr _ => .keyOrTypeError
  | .jstr s, .kint n => strGet s n
  | .jstr _, .kstr _ => .keyOrTypeError
  | _, _ => .keyOrTypeError

/-- The traversal loop of `fetch_nested_key`: a KeyError/TypeError is
caught and turns into the `None` result; an IndexError propagates. -/
def fetchLoop : JVal → List JKey → Except FetchErr JVal
  | e, [] => .ok e
  | e, k :: rest =>
    match getItem e k with
    | .ok v => fetchLoop v rest
    | .keyOrTypeError => .ok .jnull
    | .indexError => .error .indexError

/-- The root test `isinstance(obj, dict) or isinstance(obj, list)`. -/
def isContainer : JVal → Bool
  | .jobj _ => true
  | .jarr _ => true
  | _ => false

/-- `fetch_nested_key`: AttributeError for a non-dict/list root or an
empty key path, then the traversal loop over the keys. -/
def fetch_nested_key (obj : JVal) (keys : List JKey) : Except FetchErr JVal :=
  if isContainer obj then
    match keys with
    | [] => .error .attributeError
    | _ :: _ => fetchLoop obj keys
  else .error .attributeError

/-! ### Facility filtering -/

/-- A raw rootmaps listing entry, holding the values
`_filter_facilities_responses` reads off it — each comes from
`facil.get(...)` or a nested lookup, so each may be absent. -/
structure RawFacilityEntry where
  mapId : Option Int
  parkAlerts : Option String
  resourceCategoryIds : Option (List Int)
  resourceLocationId : Option Int
  localizedName : Option String
deriving DecidableEq, Repr

/-- The `ResourceLocation` pydantic model
(src/camply/containers/gtc_api_responses.py): every field is
optional-typed except `RecAreaID` (always supplied by the caller) and
`ResourceLocationName`, a required plain `str`. -/
structure ResourceLocation where
  ID : Option Int
  RecAreaID : Int
  ParkAlerts : Option String
  ResourceCategories : Option (List Int)
  ResourceLocationID : Option Int
  ResourceLocationName : String
deriving DecidableEq, Repr

/-- The error `_filter_facilities_responses` raises when pydantic
validation of a listing entry fails. -/
inductive ProviderSearchError where
  | invalidCampgroundFacility : ProviderSearchError
deriving DecidableEq

/-- Constructing `ResourceLocation` from a raw entry: validation fails
exactly when the required `ResourceLocationName` is absent (the nested
lookup of `resourceLocationLocalizedValues.en-US` returned None); every
other field accepts None. -/
def mkResourceLocation (recAreaId : Int) (f : RawFacilityEntry) :
    Except ProviderSearchError ResourceLocation :=
  match f.localizedName with
  | none => .error .invalidCampgroundFacility
  | some nm =>
    .ok ⟨f.mapId, recAreaId, f.parkAlerts, f.resourceCategoryIds,
         f.resourceLocationId, nm⟩

/-- The Campsite resource-category sentinel hardcoded by the code. -/
def campsiteCategoryId : Int := -2147483648

/-- The Group-camp resource-category sentinel hardcoded by the code. -/
def groupCampCategoryId : Int := -2147483643

/-- `_filter_facilities_responses`: validate each entry (a failure raises,
aborting the whole call), skip entries whose category set is falsy (absent
or empty), keep entries whose categories contain the campsite or
group-camp sentinel. -/
def filter_facilities_responses (recAreaId : Int) :
    List RawFacilityEntry → Except ProviderSearchError (List ResourceLocation)
  | [] => .ok []
  | f :: rest =>
    match mkResourceLocation recAreaId f with
    | .error e => .error e
    | .ok fac =>
      match filter_facilities_responses recAreaId rest with
      | .error e => .error e
      | .ok restOut =>
        match fac.ResourceCategories with
        | none => .ok restOut
        | some cats =>
          if cats = [] then .ok restOut
          else if campsiteCategoryId ∈ cats ∨ groupCampCategoryId ∈ cats then
            .ok (fac :: restOut)
          else .ok restOut

/-- A raw entry that validates and carries the campsite category. -/
def goodEntry : RawFacilityEntry :=
  ⟨some 77, none, some [campsiteCategoryId], some 5, some "Cougar Rock"⟩

/-- A raw entry whose localized name lookup returned None: pydantic
validation of `ResourceLocationName` fails on it. -/
def badEntry : RawFacilityEntry :=
  ⟨some 78, none, some [campsiteCategoryId], some 6, none⟩

/-! ### Weekends-only filtering (spec-modelled) -/

/-- Days from a civil date to the 1970-01-01 epoch (the standard
era-based civil-calendar conversion). -/
def daysFromCivil (y m d : Int) : Int :=
  let y' := if m ≤ 2 then y - 1 else y
  let era := (if 0 ≤ y' then y' else y' - 399) / 400
  let yoe := y' - era * 400
  let mp := (m + 9) % 12
  let doy := (153 * mp + 2) / 5 + d - 1
  let doe := yoe * 365 + yoe / 4 - yoe / 100 + doy
  era * 146097 + doe - 719468

/-- Epoch day `day` is a Friday or a Saturday: day 0 (1970-01-01) was a
Thursday, so weekday = (day + 4) mod 7 with 0 = Sunday, 5 = Friday,
6 = Saturday. -/
def isFriOrSat (day : Int) : Bool :=
  (day + 4) % 7 == 5 || (day + 4) % 7 == 6

/-- The nights of a candidate window: the epoch days in [start, end). -/
def windowNights (startDay endDay : Int) : List Int :=
  (List.range (endDay - startDay).toNat).map (fun i : Nat => startDay + (i : Int))

/-- Modelled from the spec: the weekends-only restriction is applied by the
base search class (camply/search/base_search.py, which is not under src/;
src only stores the `weekends_only` flag) — "restrict candidate windows to
those whose nights include at least one Friday or Saturday night". -/
def weekendsOnlyFilter (windows : List (Int × Int)) : List (Int × Int) :=
  windows.filter (fun w => (windowNights w.1 w.2).any isFriOrSat)

/-! ### get_all_campsites -/

/-- One emitted AvailableCampsite record, reduced to its identifying
campground/site pair (the remaining fields are constants or per-site
detail-lookup values that play no role in C8). -/
structure CampRecord where
  campgroundId : Int
  siteId : Int
deriving DecidableEq, Repr

/-- The inner loop of `get_all_campsites`: one record appended per site id
the availability call returned for this campground. -/
def buildRecords (campgroundId : Int) (sites : List Int) : List CampRecord :=
  sites.map (fun s => ⟨campgroundId, s⟩)

/-- `get_all_campsites`, given, per campground, the qualifying site ids its
availability call returns.  `available_sites = []` is executed INSIDE the
per-campground loop and the list is returned after the loop, so every
iteration discards the previous campground's records; with no campgrounds
the name is never bound (a NameError, modelled as `none`). -/
def get_all_campsites (campgrounds : List (Int × List Int)) :
    Option (List CampRecord) :=
  campgrounds.foldl (fun _ cg => some (buildRecords cg.1 cg.2)) none

/-! ### Theorems -/

theorem dictKeys_dictInsert_nodup {κ α : Type} [BEq κ] [LawfulBEq κ]
    (d : List (κ × α)) (k : κ) (v : α) (h : (dictKeys d).Nodup) :
    (dictKeys (dictInsert d k v)).Nodup := by
  unfold dictInsert
  by_cases ha : d.any (fun p => p.1 == k)
  · simp only [ha, if_true]
    have hf : (Prod.fst ∘ fun p : κ × α => if p.1 == k then (p.1, v) else p)
        = Prod.fst := by
      funext p
      by_cases hp : p.1 == k <;> simp [hp]
    simpa [dictKeys, List.map_map, hf] using h
  · rw [if_neg ha]
    have hk : k ∉ dictKeys d := by
      intro hmem
      rcases List.mem_map.mp hmem with ⟨p, hp, hpk⟩
      exact ha (List.any_eq_true.mpr ⟨p, hp, by simp [hpk]⟩)
    simp only [dictKeys, List.map_append]
    rw [List.nodup_append]
    refine ⟨h, by simp, ?_⟩
    intro a hmem
    simp only [List.map_cons, List.map_nil, List.mem_singleton]
    intro hak
    exact hk (hak ▸ hmem)

theorem dictKeys_dictUpdate_nodup {κ α : Type} [BEq κ] [LawfulBEq κ]
    (d e : List (κ × α)) (h : (dictKeys d).Nodup) :
    (dictKeys (dictUpdate d e)).Nodup := by
  induction e generalizing d with
  | nil => simpa [dictUpdate] using h
  | cons p rest ih =>
    simpa [dictUpdate] using ih (dictInsert d p.1 p.2)
      (dictKeys_dictInsert_nodup d p.1 p.2 h)

theorem dictLookup_eq_none_of_not_mem {κ α : Type} [BEq κ] [LawfulBEq κ]
    (e : List (κ × α)) (k : κ) (h : k ∉ dictKeys e) : dictLookup e k = none := by
  induction e with
  | nil => rfl
  | cons p rest ih =>
    have hp : ¬ (p.1 == k) = true := by
      intro hpk
      apply h
      have hk : p.1 = k := eq_of_beq hpk
      simp [dictKeys, hk]
    have hrest : k ∉ dictKeys rest := by
      intro hm
      apply h
      simp [dictKeys] at hm ⊢
      right
      exact hm
    simpa [dictLookup, List.find?, hp] using ih hrest

theorem dictLookup_map_replace_self {κ α : Type} [BEq κ] [LawfulBEq κ]
    (d : List (κ × α)) (k : κ) (v : α) (ha : d.any (fun p => p.1 == k)) :
    dictLookup (d.map (fun p => if p.1 == k then (p.1, v) else p)) k = some v := by
  induction d with
  | nil => simp at ha
  | cons p rest ih =>
    by_cases hp : (p.1 == k) = true
    · simp [dictLookup, List.find?, hp]
    · have : rest.any (fun p => p.1 == k) := by
        rcases List.any_eq_true.mp ha with ⟨q, hq, hqk⟩
        rcases List.mem_cons.mp hq with rfl | hq'
        · exact absurd hqk hp
        · exact List.any_eq_true.mpr ⟨q, hq', hqk⟩
      simpa [dictLookup, List.find?, hp] using ih this

theorem dictLookup_append_fresh {κ α : Type} [BEq κ] [LawfulBEq κ]
    (d : List (κ × α)) (k : κ) (v : α)
    (ha : ¬ d.any (fun p => p.1 == k) = true) :
    dictLookup (d ++ [(k, v)]) k = some v := by
  induction d with
  | nil => simp [dictLookup, List.find?]
  | cons p rest ih =>
    have hp : ¬ (p.1 == k) = true := fun h => ha (by simp [List.any_cons, h])
    have hrest : ¬ rest.any (fun p => p.1 == k) = true :=
      fun h => ha (by simp [List.any_cons, h])
    simpa [dictLookup, List.find?, hp] using ih hrest

theorem dictLookup_dictInsert_self {κ α : Type} [BEq κ] [LawfulBEq κ]
    (d : List (κ × α)) (k : κ) (v : α) :
    dictLookup (dictInsert d k v) k = some v := by
  unfold dictInsert
  by_cases ha : d.any (fun p => p.1 == k)
  · simpa [ha] using dictLookup_map_replace_self d k v ha
  · simpa [ha] using dictLookup_append_fresh d k v ha

theorem dictLookup_map_replace_ne {κ α : Type} [BEq κ] [LawfulBEq κ]
    (d : List (κ × α)) (k k' : κ) (v : α) (hne : k' ≠ k) :
    dictLookup (d.map (fun p => if p.1 == k then (p.1, v) else p)) k'
      = dictLookup d k' := by
  induction d with
  | nil => rfl
  | cons p rest ih =>
    by_cases hp : (p.1 == k) = true
    · have hk : p.1 = k := eq_of_beq hp
      have hp' : ¬ (p.1 == k') = true := by
        simp [hk]
        exact fun h => hne h.symm
      simp [dictLookup, List.find?, hp, hp'] at ih ⊢
      exact ih
    · by_cases hp' : (p.1 == k') = true
      · simp [dictLookup, List.find?, hp, hp']
      · simp [dictLookup, List.find?, hp, hp'] at ih ⊢
        exact ih

theorem dictLookup_append_single_ne {κ α : Type} [BEq κ] [LawfulBEq κ]
    (d : List (κ × α)) (k k' : κ) (v : α) (hne : k' ≠ k) :
    dictLookup (d ++ [(k, v)]) k' = dictLookup d k' := by
  induction d with
  | nil =>
    have : ¬ (k == k') = true := by simp; exact fun h => hne h.symm
    simp [dictLookup, List.find?, this]
  | cons p rest ih =>
    by_cases hp : (p.1 == k') = true
    · simp [dictLookup, List.find?, hp]
    · simp [dictLookup, List.find?, hp] at ih ⊢
      exact ih

theorem dictLookup_dictInsert_ne {κ α : Type} [BEq κ] [LawfulBEq κ]
    (d : List (κ × α)) (k k' : κ) (v : α) (hne : k' ≠ k) :
    dictLookup (dictInsert d k v) k' = dictLookup d k' := by
  unfold dictInsert
  by_cases ha : d.any (fun p => p.1 == k)
  · simpa [ha] using dictLookup_map_replace_ne d k k' v hne
  · simpa [ha] using dictLookup_append_single_ne d k k' v hne

theorem dictLookup_dictUpdate {κ α : Type} [BEq κ] [LawfulBEq κ]
    (d e : List (κ × α)) (k : κ) (he : (dictKeys e).Nodup) :
    dictLookup (dictUpdate d e) k
      = overrideLookup (dictLookup e k) (dictLookup d k) := by
  induction e generalizing d with
  | nil => simp [dictUpdate, dictLookup, List.find?, overrideLookup]
  | cons p rest ih =>
    have hkeys : dictKeys (p :: rest) = p.1 :: dictKeys rest := rfl
    rw [hkeys] at he
    have hnotmem : p.1 ∉ dictKeys rest := (List.nodup_cons.mp he).1
    have hrest : (dictKeys rest).Nodup := (List.nodup_cons.mp he).2
    have hupd : dictUpdate d (p :: rest) = dictUpdate (dictInsert d p.1 p.2) rest := rfl
    rw [hupd, ih (dictInsert d p.1 p.2) hrest]
    by_cases hk : (p.1 == k) = true
    · have hkk : p.1 = k := eq_of_beq hk
      have h1 : dictLookup rest k = none :=
        dictLookup_eq_none_of_not_mem rest k (by rw [← hkk]; exact hnotmem)
      have h2 : dictLookup (p :: rest) k = some p.2 := by
        simp [dictLookup, List.find?, hk]
      have h3 : dictLookup (dictInsert d p.1 p.2) k = some p.2 := by
        rw [hkk] at *
        exact dictLookup_dictInsert_self d k p.2
      rw [h1, h2, h3]
      simp [overrideLookup]
    · have h2 : dictLookup (p :: rest) k = dictLookup rest k := by
        simp [dictLookup, List.find?, hk]
      have h3 : dictLookup (dictInsert d p.1 p.2) k = dictLookup d k :=
        dictLookup_dictInsert_ne d p.1 k p.2 (fun h => hk (by simp [h]))
      rw [h2, h3]

theorem mergeChildren_nodup
    (step : Int → Option (List (Int × List AvailEntry))) (cs : List Int) :
    ∀ acc r, mergeChildren step cs acc = some r →
      (dictKeys acc).Nodup → (dictKeys r).Nodup := by
  induction cs with
  | nil =>
    intro acc r h hn
    simp [mergeChildren] at h
    simpa [← h] using hn
  | cons c cs ih =>
    intro acc r h hn
    simp only [mergeChildren] at h
    cases hc : step c with
    | none => simp [hc] at h
    | some child =>
      simp only [hc] at h
      exact ih _ _ h (dictKeys_dictUpdate_nodup _ _ hn)

theorem selfLoop_never_returns_aux :
    ∀ fuel : Nat, find_matching_resources selfLoopGraph fuel 10 = none := by
  intro fuel
  induction fuel with
  | zero => rfl
  | succ n ih =>
    have hlinks : selfLoopGraph.mapLinks 10 = [10] := rfl
    simp only [find_matching_resources, hlinks, mergeChildren, ih]

/-- C1 (corrected). The resolver merges child-map results into the
accumulator with Python `dict.update`, which OVERWRITES a resource id
already present: the later-visited branch wins, not the earlier one.  What
does hold: the returned mapping never contains two availability sequences
for the same resource id (its keys stay duplicate-free), and the merge is a
deterministic last-occurrence-wins dictionary update. -/
theorem c1_resolver_merge_dedup_last_wins :
    (∀ (g : MapGraph) (fuel : Nat) (mapId : Int)
        (r : List (Int × List AvailEntry)),
        GoodGraph g → find_matching_resources g fuel mapId = some r →
        (dictKeys r).Nodup) ∧
    (∀ (d e : List (Int × List AvailEntry)) (k : Int),
        (dictKeys e).Nodup →
        dictLookup (dictUpdate d e) k
          = overrideLookup (dictLookup e k) (dictLookup d k)) := by
  constructor
  · intro g fuel mapId r hg h
    cases fuel with
    | zero => simp [find_matching_resources] at h
    | succ fuel => exact mergeChildren_nodup _ _ _ _ h (hg mapId)
  · intro d e k he
    exact dictLookup_dictUpdate d e k he

/-- The per-map availability dicts of `overlapGraph` have duplicate-free keys. -/
theorem overlapGraph_good : GoodGraph overlapGraph := by
  intro m
  unfold overlapGraph
  by_cases h10 : m = 10
  · simp [h10, dictKeys]
  · by_cases h11 : m = 11
    · simp [h10, h11, dictKeys]
    · simp [h10, h11, dictKeys]

/-- Witness for C1 at concrete inputs: a resolved mapping with
duplicate-free keys, and a concrete last-occurrence-wins update. -/
theorem c1_resolver_merge_dedup_last_wins_witness :
    (dictKeys [((1 : Int), [(⟨5⟩ : AvailEntry)])]).Nodup ∧
    dictLookup (dictUpdate [((1 : Int), [(⟨0⟩ : AvailEntry)])] [(1, [⟨5⟩])]) 1
      = some [⟨5⟩] := by
  constructor
  · exact c1_resolver_merge_dedup_last_wins.1 overlapGraph 2 10 _
      overlapGraph_good (by decide)
  · exact (c1_resolver_merge_dedup_last_wins.2
      [((1 : Int), [(⟨0⟩ : AvailEntry)])] [(1, [⟨5⟩])] 1 (by decide)).trans
      (by decide)

/-- C1 counterexample: resource id 1 is supplied by the earlier-visited
parent map 10 with status 0 and again by the later-visited child map 11
with status 5; the resolver returns the LATER branch's availability for it,
so the claim's first-occurrence-wins merge is false of the code. -/
theorem c1_counterexample :
    overlapGraph.resourceAvail 10 = [(1, [⟨0⟩])] ∧
    find_matching_resources overlapGraph 2 10 = some [(1, [⟨5⟩])] ∧
    [(⟨5⟩ : AvailEntry)] ≠ [(⟨0⟩ : AvailEntry)] := by
  refine ⟨by decide, by decide, by decide⟩

/-- C2 (corrected). The recursion does terminate when a map reports no
further child maps, returning that map's direct availabilities.  But the
code tracks no visited map ids and defines no CyclicResourceGraph error:
on a graph whose map links form a cycle it simply recurses forever —
modelled here as yielding no result at any recursion depth. -/
theorem c2_resolver_termination_no_cycle_guard :
    (∀ (g : MapGraph) (fuel : Nat) (mapId : Int), g.mapLinks mapId = [] →
        find_matching_resources g (fuel + 1) mapId
          = some (g.resourceAvail mapId)) ∧
    NeverReturns selfLoopGraph 10 := by
  constructor
  · intro g fuel mapId h
    simp [find_matching_resources, h, mergeChildren]
  · exact selfLoop_never_returns_aux

/-- Witness for C2 at a concrete input: a childless map resolves to its
direct availabilities at depth 1. -/
theorem c2_resolver_termination_no_cycle_guard_witness :
    find_matching_resources leafGraph 1 5 = some [(3, [⟨0⟩])] :=
  c2_resolver_termination_no_cycle_guard.1 leafGraph 0 5 rfl

/-- C2 counterexample: on the cyclic graph where map 10 lists itself as a
child, the resolver never produces a result at any recursion depth — it
recurses without bound instead of detecting the re-visited map id and
raising CyclicResourceGraph (no such error exists anywhere in the code). -/
theorem c2_counterexample : NeverReturns selfLoopGraph 10 :=
  selfLoop_never_returns_aux

theorem siteLoop_mem_keys :
    ∀ (resources : List (Int × List AvailEntry)) (l : List Int) (r : Int),
      siteLoop resources = some l → r ∈ l → r ∈ dictKeys resources := by
  intro resources
  induction resources with
  | nil =>
    intro l r h hr
    simp [siteLoop] at h
    subst h
    simp at hr
  | cons p rest ih =>
    intro l r h hr
    obtain ⟨rid, details⟩ := p
    simp only [siteLoop] at h
    cases hfe : firstEntryAvailability details with
    | none => simp [hfe] at h
    | some a =>
      rw [hfe] at h
      cases ht : siteLoop rest with
      | none => simp [ht] at h
      | some tail =>
        rw [ht] at h
        have hl : l = (if a = 0 then [rid] else []) ++ tail := by
          cases h
          rfl
        subst hl
        rcases List.mem_append.mp hr with h1 | h2
        · by_cases ha : a = 0
          · simp [ha] at h1
            simp [dictKeys, h1]
          · simp [ha] at h1
        · have hmem := ih tail r ht h2
          simp [dictKeys] at hmem ⊢
          right
          exact hmem

theorem siteLoop_mem_iff :
    ∀ (resources : List (Int × List AvailEntry)) (l : List Int) (r : Int)
      (entries : List AvailEntry),
      (dictKeys resources).Nodup → siteLoop resources = some l →
      (r, entries) ∈ resources →
      (r ∈ l ↔ firstEntryAvailability entries = some 0) := by
  intro resources
  induction resources with
  | nil =>
    intro l r entries _ _ hmem
    simp at hmem
  | cons p rest ih =>
    intro l r entries hnodup h hmem
    obtain ⟨rid, details⟩ := p
    have hcons : dictKeys ((rid, details) :: rest) = rid :: dictKeys rest := rfl
    rw [hcons] at hnodup
    have hnotmem : rid ∉ dictKeys rest := (List.nodup_cons.mp hnodup).1
    have hrestnodup : (dictKeys rest).Nodup := (List.nodup_cons.mp hnodup).2
    simp only [siteLoop] at h
    cases hfe : firstEntryAvailability details with
    | none => simp [hfe] at h
    | some a =>
      rw [hfe] at h
      cases ht : siteLoop rest with
      | none => simp [ht] at h
      | some tail =>
        rw [ht] at h
        have hl : l = (if a = 0 then [rid] else []) ++ tail := by
          cases h
          rfl
        subst hl
        rcases List.mem_cons.mp hmem with heq | hmem'
        · have hr : r = rid := congrArg Prod.fst heq
          have hd : entries = details := congrArg Prod.snd heq
          subst hr
          subst hd
          have hnotail : r ∉ tail := by
            intro hin
            exact hnotmem (siteLoop_mem_keys rest tail r ht hin)
          constructor
          · intro hin
            rcases List.mem_append.mp hin with h1 | h2
            · by_cases ha : a = 0
              · rw [hfe, ha]
              · simp [ha] at h1
            · exact absurd h2 hnotail
          · intro hfa
            rw [hfe] at hfa
            have ha : a = 0 := by
              cases hfa
              rfl
            simp [ha]
        · have hrk : r ∈ dictKeys rest := by
            simp [dictKeys]
            exact ⟨entries, hmem'⟩
          have hrne : r ≠ rid := by
            intro hr
            subst hr
            exact hnotmem hrk
          have hiff := ih tail r entries hrestnodup ht hmem'
          constructor
          · intro hin
            rcases List.mem_append.mp hin with h1 | h2
            · by_cases ha : a = 0
              · simp [ha] at h1
                exact absurd h1 hrne
              · simp [ha] at h1
            · exact hiff.mp h2
          · intro hfa
            exact List.mem_append.mpr (Or.inr (hiff.mpr hfa))

/-- C3 (corrected). `list_site_availability` reports a resource as available
iff that resource's FIRST availability entry has status code 0 — the query
is issued with getDailyAvailability false and only entry `[0]` is examined,
not every day of the requested window. -/
theorem c3_list_site_availability_first_entry :
    ∀ (g : MapGraph) (fuel : Nat) (mapId : Int)
      (resources : List (Int × List AvailEntry)) (l : List Int)
      (r : Int) (entries : List AvailEntry),
      find_matching_resources g fuel mapId = some resources →
      (dictKeys resources).Nodup →
      list_site_availability g fuel mapId = some l →
      (r, entries) ∈ resources →
      (r ∈ l ↔ firstEntryAvailability entries = some 0) := by
  intro g fuel mapId resources l r entries hfind hnodup hlsa hmem
  have hloop : siteLoop resources = some l := by
    simpa [list_site_availability, hfind] using hlsa
  exact siteLoop_mem_iff resources l r entries hnodup hloop hmem

/-- Witness for C3 at concrete inputs: in `dailyGraph`, resource 7 is
reported (its first entry is 0) and the reported list is exactly [7]. -/
theorem c3_list_site_availability_first_entry_witness :
    (7 : Int) ∈ ([7] : List Int) ↔
      firstEntryAvailability [⟨0⟩, ⟨1⟩] = some 0 :=
  c3_list_site_availability_first_entry dailyGraph 1 10
    [(7, [⟨0⟩, ⟨1⟩]), (8, [⟨2⟩])] [7] 7 [⟨0⟩, ⟨1⟩]
    (by decide) (by decide) (by decide) (by decide)

/-- C3 counterexample: resource 7's window has an unavailable second day
(status 1), yet `list_site_availability` reports it as available because
only the first entry is examined — refuting the claim's every-day
criterion at this input. -/
theorem c3_counterexample :
    list_site_availability dailyGraph 1 10 = some [7] ∧
    specWindowAllAvailable [⟨0⟩, ⟨1⟩] = false := by
  refine ⟨by decide, by decide⟩

/-- C4 (code bug).  On the spec's scenario listing the matcher returns NO
category for descriptor ("rv/trailer", 25): the test
`eq_name.find(our_equipment_name) > 0` rejects a match at position 0 of the
name, so both RV/Trailer categories fail the name test outright (their
names start with "rv/trailer", giving find = 0) and the claimed result id 7
is never reached — the code exits with "No equipment category found". -/
theorem c4_equipment_scenario_eval :
    list_equipment_categories scenarioListing = some scenarioCategories ∧
    get_equipment_category scenarioCategories "rv/trailer" 25 = none ∧
    strFind "rv/trailer up to 20\x27" "rv/trailer" = 0 ∧
    strFind "rv/trailer over 40\x27" "rv/trailer" = 0 := by
  refine ⟨by decide, by decide, by decide, by decide⟩

/-- C10 (confirmed).  Matching one category is monotone in the descriptor
length: if a category accepts the descriptor at length L, it accepts it at
every length L' with 0 ≤ L' ≤ L — length 0 is accepted on a name match
unconditionally, and a positive length whenever it is at most the
category's max size. -/
theorem c10_equipment_match_monotonic :
    ∀ (eqName : String) (cid maxSize : Int) (ourName : String) (L L' : Int),
      get_equipment_category [(eqName, cid, maxSize)] ourName L = some cid →
      0 ≤ L' → L' ≤ L →
      get_equipment_category [(eqName, cid, maxSize)] ourName L' = some cid := by
  intro eqName cid maxSize ourName L L' hmatch h0 hle
  simp only [get_equipment_category] at hmatch ⊢
  by_cases hf : strFind eqName ourName > 0
  · simp only [hf, if_true] at hmatch ⊢
    by_cases hL : L = 0
    · have hL' : L' = 0 := le_antisymm (hL ▸ hle) h0
      simp [hL']
    · simp only [hL, if_false] at hmatch
      by_cases hcond : 0 < L ∧ L ≤ maxSize
      · by_cases hL' : L' = 0
        · simp [hL']
        · have h0' : 0 < L' := lt_of_le_of_ne h0 (Ne.symm hL')
          have hc' : 0 < L' ∧ L' ≤ maxSize := ⟨h0', le_trans hle hcond.2⟩
          simp [hL', hc']
      · simp [hcond] at hmatch
  · simp [hf] at hmatch

/-- Witness for C10 at concrete inputs: the "rv/trailer up to 20" category
accepts descriptor ("trailer", 15), hence also ("trailer", 10). -/
theorem c10_equipment_match_monotonic_witness :
    get_equipment_category [("rv/trailer up to 20\x27", 6, 20)] "trailer" 10
      = some 6 :=
  c10_equipment_match_monotonic "rv/trailer up to 20\x27" 6 20 "trailer" 15 10
    (by decide) (by decide) (by decide)

theorem fetchLoop_no_attribute_error :
    ∀ (ks : List JKey) (e : JVal) (err : FetchErr),
      fetchLoop e ks = .error err → err = .indexError := by
  intro ks
  induction ks with
  | nil =>
    intro e err h
    simp [fetchLoop] at h
  | cons k rest ih =>
    intro e err h
    simp only [fetchLoop] at h
    cases hg : getItem e k with
    | ok v =>
      rw [hg] at h
      exact ih v err h
    | keyOrTypeError =>
      rw [hg] at h
      simp at h
    | indexError =>
      rw [hg] at h
      injection h with h'
      exact h'.symm

/-- C5 (corrected).  `fetch_nested_key` returns the explicit not-found
value (None) when a mapping key is missing or a wrong-shape segment is hit
mid-traversal, but it is NOT exception-free: it raises AttributeError for a
non-container root and for an empty key path, and an out-of-range sequence
index raises an IndexError that its `except (KeyError, TypeError)` clause
does not catch; those are the only exceptions. -/
theorem c5_fetch_nested_key_errors :
    (∀ (fields : List (String × JVal)) (s : String) (keys : List JKey),
        fields.find? (fun p => p.1 == s) = none →
        fetch_nested_key (.jobj fields) (.kstr s :: keys) = .ok .jnull) ∧
    (∀ (obj : JVal) (keys : List JKey), isContainer obj = false →
        fetch_nested_key obj keys = .error .attributeError) ∧
    (∀ obj : JVal, fetch_nested_key obj [] = .error .attributeError) ∧
    (∀ (obj : JVal) (keys : List JKey) (err : FetchErr),
        isContainer obj = true → keys ≠ [] →
        fetch_nested_key obj keys = .error err → err = .indexError) := by
  refine ⟨?_, ?_, ?_, ?_⟩
  · intro fields s keys hfind
    simp [fetch_nested_key, isContainer, fetchLoop, getItem, hfind]
  · intro obj keys h
    simp [fetch_nested_key, h]
  · intro obj
    by_cases h : isContainer obj <;> simp [fetch_nested_key, h]
  · intro obj keys err hc hne h
    cases keys with
    | nil => exact absurd rfl hne
    | cons k rest =>
      unfold fetch_nested_key at h
      rw [if_pos hc] at h
      exact fetchLoop_no_attribute_error (k :: rest) obj err h

/-- Witness for C5 at concrete inputs: a missing mapping key yields the
None result; a scalar root and an empty path yield AttributeError; and on
the out-of-range-index input the raised error is indeed IndexError. -/
theorem c5_fetch_nested_key_errors_witness :
    fetch_nested_key (.jobj [("b", .jnum 1)]) [.kstr "a"] = .ok .jnull ∧
    fetch_nested_key (.jnum 3) [.kstr "a"] = .error .attributeError ∧
    fetch_nested_key (.jobj [("b", .jnum 1)]) [] = .error .attributeError ∧
    FetchErr.indexError = FetchErr.indexError := by
  refine ⟨?_, ?_, ?_, ?_⟩
  · exact c5_fetch_nested_key_errors.1 [("b", .jnum 1)] "a" [] rfl
  · exact c5_fetch_nested_key_errors.2.1 (.jnum 3) [.kstr "a"] rfl
  · exact c5_fetch_nested_key_errors.2.2.1 (.jobj [("b", .jnum 1)])
  · exact c5_fetch_nested_key_errors.2.2.2
      (.jobj [("a", .jarr [.jnum 1])]) [.kstr "a", .kint 5] .indexError
      rfl (by simp) rfl

/-- C5 counterexample: an out-of-range sequence index raises an uncaught
IndexError, and a scalar (non-container) root and an empty key path each
raise AttributeError — three of the claim's own "never throws" cases do
throw. -/
theorem c5_counterexample :
    fetch_nested_key (.jobj [("a", .jarr [.jnum 1])]) [.kstr "a", .kint 5]
      = .error .indexError ∧
    fetch_nested_key (.jnum 3) [.kstr "a"] = .error .attributeError ∧
    fetch_nested_key (.jarr [.jnum 1]) [] = .error .attributeError := by
  refine ⟨rfl, rfl, rfl⟩

/-- C6 (corrected).  A raw listing entry that cannot be normalized is NOT
skipped with a warning: `_filter_facilities_responses` raises
ProviderSearchError, aborting the whole find-facilities call, whenever any
entry of the listing is malformed. -/
theorem c6_malformed_entry_fatal :
    ∀ (recAreaId : Int) (entries : List RawFacilityEntry),
      (∃ e ∈ entries, e.localizedName = none) →
      filter_facilities_responses recAreaId entries
        = .error .invalidCampgroundFacility := by
  intro recAreaId entries
  induction entries with
  | nil =>
    intro h
    rcases h with ⟨e, he, _⟩
    simp at he
  | cons f rest ih =>
    intro h
    rcases h with ⟨e, he, hname⟩
    rcases List.mem_cons.mp he with rfl | hrest
    · simp [filter_facilities_responses, mkResourceLocation, hname]
    · cases hf : f.localizedName with
      | none => simp [filter_facilities_responses, mkResourceLocation, hf]
      | some nm =>
        have herr := ih ⟨e, hrest, hname⟩
        simp [filter_facilities_responses, mkResourceLocation, hf, herr]

/-- Witness for C6 at a concrete input: a listing with a valid first entry
and a malformed second entry makes the whole call fail. -/
theorem c6_malformed_entry_fatal_witness :
    filter_facilities_responses 1 [goodEntry, badEntry]
      = .error .invalidCampgroundFacility :=
  c6_malformed_entry_fatal 1 [goodEntry, badEntry]
    ⟨badEntry, by decide, rfl⟩

/-- C6 counterexample: with a valid first entry and a malformed second,
the call raises instead of returning the facility built from the valid
entry (which the same input minus the malformed entry does produce) —
the malformed entry IS fatal to the whole call. -/
theorem c6_counterexample :
    filter_facilities_responses 1 [goodEntry, badEntry]
      = .error .invalidCampgroundFacility ∧
    filter_facilities_responses 1 [goodEntry]
      = .ok [⟨some 77, 1, none, some [campsiteCategoryId], some 5,
             "Cougar Rock"⟩] := by
  refine ⟨rfl, rfl⟩

/-- C9 (confirmed).  Every facility in a successful output of
`_filter_facilities_responses` has a category set that is present,
non-empty, and contains the campsite or group-camp sentinel — entries with
an absent/empty category set, or one disjoint from the bookable
categories, never reach the output, on every input listing. -/
theorem c9_filtered_facilities_bookable :
    ∀ (recAreaId : Int) (entries : List RawFacilityEntry)
      (out : List ResourceLocation),
      filter_facilities_responses recAreaId entries = .ok out →
      ∀ fac ∈ out, ∃ cats : List Int,
        fac.ResourceCategories = some cats ∧ cats ≠ [] ∧
        (campsiteCategoryId ∈ cats ∨ groupCampCategoryId ∈ cats) := by
  intro recAreaId entries
  induction entries with
  | nil =>
    intro out h fac hfac
    simp [filter_facilities_responses] at h
    subst h
    simp at hfac
  | cons f rest ih =>
    intro out h fac hfac
    simp only [filter_facilities_responses] at h
    cases hmk : mkResourceLocation recAreaId f with
    | error e =>
      simp only [hmk] at h
      simp at h
    | ok fc =>
      simp only [hmk] at h
      cases hrest : filter_facilities_responses recAreaId rest with
      | error e =>
        simp only [hrest] at h
        simp at h
      | ok restOut =>
        simp only [hrest] at h
        cases hcats : fc.ResourceCategories with
        | none =>
          simp only [hcats] at h
          injection h with h'
          subst h'
          exact ih _ hrest fac hfac
        | some cats =>
          simp only [hcats] at h
          by_cases hempty : cats = []
          · rw [if_pos hempty] at h
            injection h with h'
            subst h'
            exact ih _ hrest fac hfac
          · rw [if_neg hempty] at h
            by_cases hsent : campsiteCategoryId ∈ cats ∨ groupCampCategoryId ∈ cats
            · rw [if_pos hsent] at h
              injection h with h'
              subst h'
              rcases List.mem_cons.mp hfac with rfl | hfac'
              · exact ⟨cats, hcats, hempty, hsent⟩
              · exact ih _ hrest fac hfac'
            · rw [if_neg hsent] at h
              injection h with h'
              subst h'
              exact ih _ hrest fac hfac

/-- Witness for C9 at a concrete input: the facility built from
`goodEntry` carries a non-empty bookable category set. -/
theorem c9_filtered_facilities_bookable_witness :
    ∃ cats : List Int,
      (⟨some 77, 1, none, some [campsiteCategoryId], some 5,
        "Cougar Rock"⟩ : ResourceLocation).ResourceCategories = some cats ∧
      cats ≠ [] ∧
      (campsiteCategoryId ∈ cats ∨ groupCampCategoryId ∈ cats) :=
  c9_filtered_facilities_bookable 1 [goodEntry]
    [⟨some 77, 1, none, some [campsiteCategoryId], some 5, "Cougar Rock"⟩]
    rfl _ (by decide)

/-- C7 (confirmed against the spec-modelled filter).  A candidate window is
retained iff it is among the candidates and some night in [start, end) is
a Friday or Saturday; windows with no Friday/Saturday night are discarded. -/
theorem c7_weekends_only_retention :
    ∀ (windows : List (Int × Int)) (w : Int × Int),
      w ∈ weekendsOnlyFilter windows ↔
        (w ∈ windows ∧
          ∃ d : Int, w.1 ≤ d ∧ d < w.2 ∧ isFriOrSat d = true) := by
  intro windows w
  rw [weekendsOnlyFilter, List.mem_filter]
  refine and_congr Iff.rfl ?_
  rw [List.any_eq_true]
  constructor
  · rintro ⟨d, hd, hfs⟩
    rw [windowNights, List.mem_map] at hd
    obtain ⟨i, hi, rfl⟩ := hd
    rw [List.mem_range] at hi
    exact ⟨w.1 + (i : Int), by omega, by omega, hfs⟩
  · rintro ⟨d, h1, h2, hfs⟩
    refine ⟨d, ?_, hfs⟩
    rw [windowNights, List.mem_map]
    refine ⟨(d - w.1).toNat, ?_, ?_⟩
    · rw [List.mem_range]
      omega
    · omega

/-- Witness for C7 at a concrete input: the window whose nights are
2025-07-04 (a Friday) and 2025-07-05 (a Saturday) is retained. -/
theorem c7_weekends_only_retention_witness :
    (daysFromCivil 2025 7 4, daysFromCivil 2025 7 6) ∈
      weekendsOnlyFilter [(daysFromCivil 2025 7 4, daysFromCivil 2025 7 6)] :=
  (c7_weekends_only_retention
      [(daysFromCivil 2025 7 4, daysFromCivil 2025 7 6)]
      (daysFromCivil 2025 7 4, daysFromCivil 2025 7 6)).mpr
    ⟨by decide, daysFromCivil 2025 7 4, by decide, by decide, by decide⟩

/-- C8 (code bug): with two campgrounds each contributing one qualifying
site, `get_all_campsites` returns only the LAST campground's record — the
accumulator is re-initialised inside the loop, so campground 1's record is
lost, contradicting the function's own name and docstring ("Search for all
campsites matching search criteria"). -/
theorem c8_get_all_campsites_eval :
    get_all_campsites [(1, [10]), (2, [20])] = some [⟨2, 20⟩] ∧
    (⟨1, 10⟩ : CampRecord) ∉ [(⟨2, 20⟩ : CampRecord)] := by
  refine ⟨by decide, by decide⟩

end Camply
